import Mathlib

/-!
Verification of the paperless invoice forwarder script: decision engine
(decide_and_route), deterministic signal extraction (keyword containment and
IBAN pattern matching), two-stage classifier cascade gate, the processed-
document ledger, and the per-document processing step of the poll loop.
Confidence values (floats in the source) are modelled as rationals; character
classes of the source's regular expressions are modelled over their ASCII
range, which covers all inputs considered here.
-/

namespace Forwarder

/-- Runtime configuration: the environment-derived constants of the script
that the decision logic reads (keyword lists, IBAN allow-list, thresholds). -/
structure Config where
  keywords_farming : List String
  keywords_it : List String
  match_ibans : List String
  invoice_confidence_min : ℚ
  gate_invoice_min : ℚ
  deriving Repr, DecidableEq

/-- Classifier output dictionary as consumed by `decide_and_route` (the
`meta` dict). A field absent from the model's JSON is `none` (numeric, read
with a default) or `false` (boolean, read through `bool(...)`). -/
structure MetaDict where
  is_invoice : Bool
  invoice_confidence : Option ℚ
  confidence : Option ℚ
  is_farming_related : Bool
  farming_confidence : Option ℚ
  is_it_related : Bool
  it_confidence : Option ℚ
  it_deductible_for_tax : Bool
  notes : String
  deriving Repr, DecidableEq

/-- Gate-stage classifier output (cheap model, first cascade stage). -/
structure GateResult where
  is_invoice : Bool
  confidence : Option ℚ
  is_farming_related : Bool
  farming_confidence : Option ℚ
  is_it_related : Bool
  it_confidence : Option ℚ
  notes : String
  deriving Repr, DecidableEq

/-- The routing decision returned by `decide_and_route`. -/
structure Decision where
  invoice : Bool
  invoice_conf : ℚ
  iban_match : Bool
  keyword_match : Bool
  ai_farm : Bool
  ai_it : Bool
  it_deductible : Bool
  forward_farm : Bool
  forward_it : Bool
  reasons : List String
  deriving Repr, DecidableEq

/-- `inv_conf = float(meta.get("invoice_confidence", meta.get("confidence", 0.0)) or 0.0)`. -/
def inv_conf (m : MetaDict) : ℚ :=
  (m.invoice_confidence.getD (m.confidence.getD 0))

/-- Word character for the regex word-boundary assertion (ASCII range). -/
def isWordChar (c : Char) : Bool :=
  (('a' ≤ c && c ≤ 'z') || ('A' ≤ c && c ≤ 'Z') || ('0' ≤ c && c ≤ '9') || c = '_')

/-- Whitespace character class of the source regexes (ASCII range). -/
def isReSpace (c : Char) : Bool :=
  c = ' ' || c = '\t' || c = '\n' || c = '\r' || c = '\x0b' || c = '\x0c'

def isUpperAZ (c : Char) : Bool := 'A' ≤ c && c ≤ 'Z'

def isDigit09 (c : Char) : Bool := '0' ≤ c && c ≤ '9'

def isUpperOrDigit (c : Char) : Bool := isUpperAZ c || isDigit09 c

/-- Does the character list `l` start with `k`. -/
def startsWithChars (k l : List Char) : Bool :=
  match k, l with
  | [], _ => true
  | _ :: _, [] => false
  | a :: k', b :: l' => a == b && startsWithChars k' l'

/-- Does `k` occur as a contiguous run inside `l`. -/
def occursIn (k : List Char) : List Char → Bool
  | [] => k.isEmpty
  | c :: rest => startsWithChars k (c :: rest) || occursIn k rest

/-- Substring containment, the Python `k in t` test on strings. -/
def str_contains_sub (t k : String) : Bool :=
  occursIn k.toList t.toList

/-- Lower-casing of a string, character by character (Python `str.lower`). -/
def lowerStr (s : String) : String :=
  String.mk (s.toList.map Char.toLower)

/-- `contains_any(text, kws)`: lower-case the text and test whether any
non-empty keyword occurs in it as a substring. -/
def contains_any (text : String) (kws : List String) : Bool :=
  kws.any (fun k => !(k == "") && str_contains_sub (lowerStr text) k)

/-- First result of an option-valued function over a list, in list order
(the backtracking preference order of the regex engine). -/
def firstSome {α β : Type} (xs : List α) (f : α → Option β) : Option β :=
  match xs with
  | [] => none
  | x :: rest =>
    match f x with
    | some y => some y
    | none => firstSome rest f

/-- Consume exactly `n` upper-case-or-digit characters. -/
def takeAlnum : Nat → List Char → Option (List Char)
  | 0, l => some l
  | _ + 1, [] => none
  | n + 1, c :: r => if isUpperOrDigit c then takeAlnum n r else none

/-- Alternatives (in greedy order) for one repetition of the regex group
an optional whitespace followed by exactly four upper-case-or-digit
characters; each alternative is the remaining input. -/
def blockAlts (l : List Char) : List (List Char) :=
  let withSpace :=
    match l with
    | s :: r =>
      if isReSpace s then
        match takeAlnum 4 r with
        | some rest => [rest]
        | none => []
      else []
    | [] => []
  let noSpace :=
    match takeAlnum 4 l with
    | some rest => [rest]
    | none => []
  withSpace ++ noSpace

/-- Alternatives (in greedy order) for the regex tail, an optional whitespace
followed by zero to four upper-case-or-digit characters. Each alternative
carries whether the last character consumed by the whole match so far is a
word character (needed for the closing word-boundary assertion; when the tail
consumes nothing, the previous character was an alphanumeric block character). -/
def tailOptions (l : List Char) : List (Bool × List Char) :=
  let withSpace :=
    match l with
    | s :: r =>
      if isReSpace s then
        ([4, 3, 2, 1, 0].filterMap
          (fun n => (takeAlnum n r).map (fun rest => (decide (n ≠ 0), rest))))
      else []
    | [] => []
  let noSpace :=
    [4, 3, 2, 1, 0].filterMap (fun n => (takeAlnum n l).map (fun rest => (true, rest)))
  withSpace ++ noSpace

/-- Word-boundary assertion after the match: word-ness changes between the
last consumed character and the next input character (end of input counts as
non-word). -/
def boundaryAfter (lastIsWord : Bool) (rest : List Char) : Bool :=
  match rest with
  | [] => lastIsWord
  | c :: _ => lastIsWord != isWordChar c

/-- Try to finish the match here: match the tail and the closing word
boundary, exploring tail alternatives in greedy order. -/
def tryStop (l : List Char) : Option (List Char) :=
  firstSome (tailOptions l) (fun p => if boundaryAfter p.1 p.2 then some p.2 else none)

/-- Backtracking search for the part of the IBAN regex after the four-character
lead: two to seven repetitions of the block group, then the tail and the
closing boundary. `blocksLeft` starts at 7; stopping is allowed once at least
two repetitions are matched, and being greedy the engine prefers a further
repetition over stopping. Returns the remaining input after the match. -/
def matchSeq : Nat → List Char → Option (List Char)
  | 0, l => tryStop l
  | bl + 1, l =>
    match firstSome (blockAlts l) (fun l2 => matchSeq bl l2) with
    | some r => some r
    | none => if bl + 1 ≤ 5 then tryStop l else none

/-- Attempt the full IBAN regex at the current position. `prevWord` says
whether the character just before this position is a word character (the
opening word-boundary assertion; the first matched character is a letter). -/
def matchIbanHere (prevWord : Bool) (l : List Char) : Option (List Char) :=
  if prevWord then none
  else
    match l with
    | a :: b :: c :: d :: rest =>
      if isUpperAZ a && isUpperAZ b && isDigit09 c && isDigit09 d then matchSeq 7 rest
      else none
    | _ => none

/-- Scan of `IBAN_REGEX.finditer`: leftmost matches, non-overlapping,
resuming after each match. Returns the matched character runs in order. -/
def scanIbans : Nat → Bool → List Char → List (List Char)
  | 0, _, _ => []
  | _ + 1, _, [] => []
  | fuel + 1, prevWord, c :: rest =>
    match matchIbanHere prevWord (c :: rest) with
    | some remaining =>
      let m := (c :: rest).take ((c :: rest).length - remaining.length)
      m :: scanIbans fuel (isWordChar (m.getLastD 'A')) remaining
    | none => scanIbans fuel (isWordChar c) rest

/-- Normalization applied to each raw match: drop all whitespace and
upper-case (`re.sub` of whitespace with the empty string, then `upper`). -/
def normalizeIban (m : List Char) : String :=
  String.mk ((m.filter (fun c => !isReSpace c)).map Char.toUpper)

/-- `extract_ibans`: all regex matches, normalized, kept when the normalized
length is between 15 and 34 inclusive (membership-relevant set, kept as a list). -/
def extract_ibans (text : String) : List String :=
  let cs := text.toList
  ((scanIbans (cs.length + 1) false cs).map normalizeIban).filter
    (fun s => decide (15 ≤ s.length ∧ s.length ≤ 34))

/-- `matches_specific_iban`: false when the allow-list is empty, otherwise
true iff some configured identifier was extracted from the text. -/
def matches_specific_iban (ibans : List String) (text : String) : Bool :=
  if ibans.isEmpty then false
  else ibans.any (fun x => (extract_ibans text).contains x)

/-- `ai_farm = bool(meta.get("is_farming_related")) and farming_confidence >= 0.5`. -/
def ai_farm_of (m : MetaDict) : Bool :=
  m.is_farming_related && decide (mkRat 1 2 ≤ m.farming_confidence.getD 0)

/-- `ai_it = bool(meta.get("is_it_related")) and it_confidence >= 0.5`. -/
def ai_it_of (m : MetaDict) : Bool :=
  m.is_it_related && decide (mkRat 1 2 ≤ m.it_confidence.getD 0)

/-- `it_deductible = bool(meta.get("it_deductible_for_tax")) and ai_it`. -/
def it_deductible_of (m : MetaDict) : Bool :=
  m.it_deductible_for_tax && ai_it_of m

/-- The trigger disjunction the source computes:
`triggers = iban_match or keyword_match or ai_farm or it_deductible`. -/
def triggers_of (cfg : Config) (m : MetaDict) (text : String) : Bool :=
  matches_specific_iban cfg.match_ibans text
    || (contains_any text cfg.keywords_farming || contains_any text cfg.keywords_it)
    || ai_farm_of m
    || (m.it_deductible_for_tax && ai_it_of m)

/-- Trigger disjunction as the specification document words it: IBAN match,
keyword match for any topic, ai_related for ANY topic (farming or IT), or
deductible for any topic. Written from the spec text, for comparison with
`triggers_of` which is written from the source. -/
def spec_triggers (cfg : Config) (m : MetaDict) (text : String) : Bool :=
  matches_specific_iban cfg.match_ibans text
    || (contains_any text cfg.keywords_farming || contains_any text cfg.keywords_it)
    || ai_farm_of m
    || ai_it_of m
    || (m.it_deductible_for_tax && ai_it_of m)

/-- Per-topic forward formula for IT as the specification words it:
`triggers AND (ai_related[IT] OR keyword_match[IT] OR deductible[IT])`.
Written from the spec text, for comparison with the source rule. -/
def spec_forward_it (cfg : Config) (m : MetaDict) (text : String) : Bool :=
  spec_triggers cfg m text
    && (ai_it_of m || contains_any text cfg.keywords_it || it_deductible_of m)

/-- The reason list accumulated before the invoice/confidence gate:
one tag per active signal, in the source's fixed append order. -/
def reasons_of (cfg : Config) (m : MetaDict) (text : String) : List String :=
  (if matches_specific_iban cfg.match_ibans text then ["iban"] else [])
    ++ (if contains_any text cfg.keywords_farming || contains_any text cfg.keywords_it then
          ["keyword"] else [])
    ++ (if ai_farm_of m then ["ai_farm"] else [])
    ++ (if ai_it_of m then ["ai_it"] else [])
    ++ (if m.it_deductible_for_tax && ai_it_of m then ["it_deductible"] else [])

/-- `decide_and_route(meta, text)`, the decision engine. -/
def decide_and_route (cfg : Config) (meta : MetaDict) (text : String) : Decision :=
  let invoice := meta.is_invoice
  let invConf := inv_conf meta
  let iban_match := matches_specific_iban cfg.match_ibans text
  let keyword_match := contains_any text cfg.keywords_farming || contains_any text cfg.keywords_it
  let ai_farm := ai_farm_of meta
  let ai_it := ai_it_of meta
  let it_deductible := meta.it_deductible_for_tax && ai_it
  let reasons :=
    (if iban_match then ["iban"] else [])
      ++ (if keyword_match then ["keyword"] else [])
      ++ (if ai_farm then ["ai_farm"] else [])
      ++ (if ai_it then ["ai_it"] else [])
      ++ (if it_deductible then ["it_deductible"] else [])
  if !invoice || decide (invConf < cfg.invoice_confidence_min) then
    { invoice := invoice, invoice_conf := invConf,
      iban_match := iban_match, keyword_match := keyword_match,
      ai_farm := ai_farm, ai_it := ai_it, it_deductible := it_deductible,
      forward_farm := false, forward_it := false, reasons := reasons }
  else
    let triggers := iban_match || keyword_match || ai_farm || it_deductible
    let forward_farm := triggers && (ai_farm || contains_any text cfg.keywords_farming)
    let forward_it := triggers && (it_deductible || contains_any text cfg.keywords_it)
    if triggers && !forward_farm && !forward_it then
      { invoice := invoice, invoice_conf := invConf,
        iban_match := iban_match, keyword_match := keyword_match,
        ai_farm := ai_farm, ai_it := ai_it, it_deductible := it_deductible,
        forward_farm := true, forward_it := forward_it,
        reasons := reasons ++ ["default_farm"] }
    else
      { invoice := invoice, invoice_conf := invConf,
        iban_match := iban_match, keyword_match := keyword_match,
        ai_farm := ai_farm, ai_it := ai_it, it_deductible := it_deductible,
        forward_farm := forward_farm, forward_it := forward_it, reasons := reasons }

/-- `already_done(doc_id)`: is there a ledger row for this id. The ledger is
the `processed_docs` table, rows `(doc_id, processed_utc)`, primary key
`doc_id`. -/
def already_done (L : List (Nat × Nat)) (id : Nat) : Bool :=
  L.any (fun e => e.1 == id)

/-- `mark_done(doc_id)`: `INSERT OR IGNORE` keyed on `doc_id` — append a row
unless one with this id exists. -/
def mark_done (L : List (Nat × Nat)) (id t : Nat) : List (Nat × Nat) :=
  if already_done L id then L else L ++ [(id, t)]

/-- `run_big = bool(gate.is_invoice) and gate confidence >= GATE_INVOICE_MIN`:
the gate decision of the cascade. -/
def run_big (cfg : Config) (gate : GateResult) : Bool :=
  gate.is_invoice && decide (cfg.gate_invoice_min ≤ gate.confidence.getD 0)

/-- The meta dict the main loop synthesizes from the gate output when the
extract stage is not run. -/
def synth_meta (gate : GateResult) : MetaDict :=
  { is_invoice := false
  , invoice_confidence := some (gate.confidence.getD 0)
  , confidence := none
  , is_farming_related := gate.is_farming_related
  , farming_confidence := some (gate.farming_confidence.getD 0)
  , is_it_related := gate.is_it_related
  , it_confidence := some (gate.it_confidence.getD 0)
  , it_deductible_for_tax := false
  , notes := gate.notes }

/-- The meta dict the main loop passes to the decision engine: the extract
stage's answer when the gate approves, otherwise the synthesized one.
`extractMeta` stands for the external extract model's response. -/
def cascade_meta (cfg : Config) (gate : GateResult) (extractMeta : MetaDict) : MetaDict :=
  if run_big cfg gate then extractMeta else synth_meta gate

/-- Tags added after a forward: the forwarded tag plus one tag per true
signal flag of the decision, in the source's fixed order. -/
def outcome_tags (d : Decision) : List String :=
  ["forwarded"]
    ++ (if d.iban_match then ["reason_iban"] else [])
    ++ (if d.keyword_match then ["reason_keyword"] else [])
    ++ (if d.ai_farm then ["topic_farm"] else [])
    ++ (if d.ai_it then ["topic_it"] else [])
    ++ (if d.it_deductible then ["it_deductible"] else [])

/-- The outcome tag that corresponds to each reason tag the decision engine
emits (identity on anything else). -/
def reasonLabel : String → String
  | "iban" => "reason_iban"
  | "keyword" => "reason_keyword"
  | "ai_farm" => "topic_farm"
  | "ai_it" => "topic_it"
  | "it_deductible" => "it_deductible"
  | r => r

/-- `not text.strip()`: the text is empty or all whitespace. -/
def is_blank (s : String) : Bool :=
  s.toList.all isReSpace

/-- Observable effects of processing one not-yet-done document in the poll
loop body: number of classifier calls, labels applied, e-mails sent (by
recipient), and whether the document was marked done. -/
structure DocEffects where
  classifier_calls : Nat
  labels : List String
  emails : List String
  marked_done : Bool
  deriving Repr, DecidableEq

/-- No observable effect (the document was skipped). -/
def noEffects : DocEffects :=
  { classifier_calls := 0, labels := [], emails := [], marked_done := false }

/-- The poll loop body for one document that is not yet in the ledger, after
its text was fetched: skip silently on blank text; otherwise run the gate,
conditionally the extract stage, the decision engine, and the outcome
applier, and mark the document done. `gate` and `extractMeta` stand for the
external classifier's responses to the two prompts. -/
def process_doc (cfg : Config) (text : String) (gate : GateResult)
    (extractMeta : MetaDict) (farmTo itTo : String) : DocEffects :=
  if is_blank text then noEffects
  else
    let meta := cascade_meta cfg gate extractMeta
    let calls := if run_big cfg gate then 2 else 1
    let d := decide_and_route cfg meta text
    let labelsA := ["ai"] ++ (if d.invoice then ["invoice"] else [])
    let emails := (if d.forward_farm then [farmTo] else [])
      ++ (if d.forward_it then [itTo] else [])
    let forwardedAny := d.forward_farm || d.forward_it
    let labelsB :=
      if forwardedAny then outcome_tags d
      else if d.invoice then ["not_forwarded"] else []
    { classifier_calls := calls, labels := labelsA ++ labelsB,
      emails := emails, marked_done := true }

/-- One document's turn in the poll loop, including the ledger check before
and the ledger write after: a document already in the ledger is skipped; an
evaluated document is marked done exactly when `process_doc` says so. -/
def process_step (cfg : Config) (L : List (Nat × Nat)) (docId t : Nat)
    (text : String) (gate : GateResult) (extractMeta : MetaDict)
    (farmTo itTo : String) : DocEffects × List (Nat × Nat) :=
  if already_done L docId then (noEffects, L)
  else
    let eff := process_doc cfg text gate extractMeta farmTo itTo
    (eff, if eff.marked_done then mark_done L docId t else L)

/-! Concrete inputs used by counterexamples and witnesses. -/

def cfg0 : Config :=
  { keywords_farming := ["traktor"]
  , keywords_it := ["server"]
  , match_ibans := ["DE44500105175407324931"]
  , invoice_confidence_min := mkRat 3 5
  , gate_invoice_min := mkRat 7 20 }

/-- An invoice meta where only the IT relatedness signal is present. -/
def metaAiItOnly : MetaDict :=
  { is_invoice := true, invoice_confidence := some (mkRat 9 10), confidence := none
  , is_farming_related := false, farming_confidence := none
  , is_it_related := true, it_confidence := some (mkRat 9 10)
  , it_deductible_for_tax := false, notes := "" }

/-- An invoice meta with both relatedness signals but no deductibility. -/
def metaFarmIt : MetaDict :=
  { is_invoice := true, invoice_confidence := some (mkRat 9 10), confidence := none
  , is_farming_related := true, farming_confidence := some (mkRat 9 10)
  , is_it_related := true, it_confidence := some (mkRat 9 10)
  , it_deductible_for_tax := false, notes := "" }

/-- A non-invoice meta that still carries a farming relatedness signal. -/
def metaNoInvoice : MetaDict :=
  { is_invoice := false, invoice_confidence := some (mkRat 9 10), confidence := none
  , is_farming_related := true, farming_confidence := some (mkRat 9 10)
  , is_it_related := false, it_confidence := none
  , it_deductible_for_tax := false, notes := "" }

/-- An invoice meta with no topic signal at all. -/
def metaInvoiceOnly : MetaDict :=
  { is_invoice := true, invoice_confidence := some (mkRat 9 10), confidence := none
  , is_farming_related := false, farming_confidence := none
  , is_it_related := false, it_confidence := none
  , it_deductible_for_tax := false, notes := "" }

def textPlain : String := "hello"

/-- A text containing a configured IBAN (with grouping whitespace) and no
configured keyword. -/
def textIban : String := "zahlung DE44 5001 0517 5407 3249 31 danke"

def textBlank : String := "  "

/-- A gate answer the cascade rejects (confidence below the 0.35 default). -/
def gate0 : GateResult :=
  { is_invoice := true, confidence := some (mkRat 1 10)
  , is_farming_related := true, farming_confidence := some (mkRat 9 10)
  , is_it_related := false, it_confidence := none, notes := "" }

/-! Helper lemmas shared by several results. -/

/-- When the invoice/confidence gate fails, the decision is the full
short-circuit record: both forward flags false and the pre-gate reason list. -/
lemma gate_fail_eval (cfg : Config) (m : MetaDict) (text : String)
    (h : m.is_invoice = false ∨ inv_conf m < cfg.invoice_confidence_min) :
    decide_and_route cfg m text =
      { invoice := m.is_invoice, invoice_conf := inv_conf m,
        iban_match := matches_specific_iban cfg.match_ibans text,
        keyword_match := contains_any text cfg.keywords_farming
          || contains_any text cfg.keywords_it,
        ai_farm := ai_farm_of m, ai_it := ai_it_of m,
        it_deductible := m.it_deductible_for_tax && ai_it_of m,
        forward_farm := false, forward_it := false,
        reasons := reasons_of cfg m text } := by
  have hc : (!m.is_invoice || decide (inv_conf m < cfg.invoice_confidence_min)) = true := by
    rcases h with h | h <;> simp [h]
  simp only [decide_and_route, reasons_of]
  rw [hc]
  simp

/-- A non-invoice classification can never lead to a forward. -/
lemma forwards_false_of_not_invoice (cfg : Config) (m : MetaDict) (text : String)
    (h : m.is_invoice = false) :
    (decide_and_route cfg m text).forward_farm = false ∧
      (decide_and_route cfg m text).forward_it = false := by
  rw [gate_fail_eval cfg m text (Or.inl h)]
  exact ⟨rfl, rfl⟩

/-- A second `mark_done` for an id already present is a no-op. -/
lemma mark_done_present (L : List (Nat × Nat)) (id t : Nat)
    (h : already_done L id = true) : mark_done L id t = L := by
  simp [mark_done, h]

/-- `mark_done` never removes an id from the ledger. -/
lemma already_done_mono (L : List (Nat × Nat)) (id id' t : Nat)
    (h : already_done L id = true) : already_done (mark_done L id' t) id = true := by
  unfold mark_done
  split
  · exact h
  · simp only [already_done, List.any_append] at *
    simp [h]

/-! Claims. -/

/-- C1 (corrected): the trigger disjunction the code computes is
`iban_match OR keyword_match OR ai_farm OR it_deductible` — `ai_related[IT]`
alone is not a trigger. Whenever that disjunction is false both forward flags
are false, and once the invoice gate passes the returned forward flags are
some-forward exactly when that disjunction is true. -/
theorem c1_trigger (cfg : Config) (m : MetaDict) (text : String) :
    (triggers_of cfg m text = false →
      (decide_and_route cfg m text).forward_farm = false ∧
        (decide_and_route cfg m text).forward_it = false) ∧
    (m.is_invoice = true → ¬ inv_conf m < cfg.invoice_confidence_min →
      ((decide_and_route cfg m text).forward_farm
          || (decide_and_route cfg m text).forward_it)
        = triggers_of cfg m text) := by
  constructor
  · intro h
    revert h
    simp only [decide_and_route, triggers_of]
    generalize matches_specific_iban cfg.match_ibans text = ibm
    generalize contains_any text cfg.keywords_farming = kwf
    generalize contains_any text cfg.keywords_it = kwi
    generalize ai_farm_of m = af
    generalize ai_it_of m = ai
    generalize m.it_deductible_for_tax = dt
    generalize m.is_invoice = inv
    generalize Decidable.decide (inv_conf m < cfg.invoice_confidence_min) = cl
    cases inv <;> cases cl <;> cases ibm <;> cases kwf <;> cases kwi <;>
      cases af <;> cases ai <;> cases dt <;> simp
  · intro h1 h2
    have hd : decide (inv_conf m < cfg.invoice_confidence_min) = false := decide_eq_false h2
    simp only [decide_and_route, triggers_of]
    rw [h1, hd]
    generalize matches_specific_iban cfg.match_ibans text = ibm
    generalize contains_any text cfg.keywords_farming = kwf
    generalize contains_any text cfg.keywords_it = kwi
    generalize ai_farm_of m = af
    generalize ai_it_of m = ai
    generalize m.it_deductible_for_tax = dt
    cases ibm <;> cases kwf <;> cases kwi <;> cases af <;> cases ai <;> cases dt <;> simp

/-- C1 counterexample: an invoice meta (gate passes) whose only signal is
`ai_related[IT]` with confidence 0.9. The specification's trigger disjunction
is true, yet the decision considers no forwarding at all — so the code's
trigger condition is not the specification's disjunction. -/
theorem c1_counterexample :
    metaAiItOnly.is_invoice = true ∧
    ¬ inv_conf metaAiItOnly < cfg0.invoice_confidence_min ∧
    ai_it_of metaAiItOnly = true ∧
    spec_triggers cfg0 metaAiItOnly textPlain = true ∧
    triggers_of cfg0 metaAiItOnly textPlain = false ∧
    (decide_and_route cfg0 metaAiItOnly textPlain).forward_farm = false ∧
    (decide_and_route cfg0 metaAiItOnly textPlain).forward_it = false := by
  decide

/-- C1 witness: the amended theorem applied at a concrete input where the
code's trigger disjunction is false, and at one where the gate passes. -/
theorem c1_witness :
    triggers_of cfg0 metaAiItOnly textPlain = false ∧
    (decide_and_route cfg0 metaAiItOnly textPlain).forward_it = false ∧
    metaFarmIt.is_invoice = true ∧
    ((decide_and_route cfg0 metaFarmIt textPlain).forward_farm
        || (decide_and_route cfg0 metaFarmIt textPlain).forward_it)
      = triggers_of cfg0 metaFarmIt textPlain :=
  ⟨by decide, ((c1_trigger cfg0 metaAiItOnly textPlain).1 (by decide)).2, rfl,
    (c1_trigger cfg0 metaFarmIt textPlain).2 rfl (by decide)⟩

/-- C2 (corrected): once the gate passes and the trigger holds, the code's
per-topic rules are `forward_farm = ai_farm OR farming keyword` and
`forward_it = it_deductible OR IT keyword` — `ai_related[IT]` does not by
itself set `forward_it` — and the returned farm flag is additionally forced
true by the fallback when neither per-topic rule fired. -/
theorem c2_forward_rules (cfg : Config) (m : MetaDict) (text : String)
    (h1 : m.is_invoice = true)
    (h2 : ¬ inv_conf m < cfg.invoice_confidence_min)
    (h3 : triggers_of cfg m text = true) :
    (decide_and_route cfg m text).forward_it
        = (it_deductible_of m || contains_any text cfg.keywords_it) ∧
      (decide_and_route cfg m text).forward_farm
        = (ai_farm_of m || contains_any text cfg.keywords_farming
            || !(it_deductible_of m || contains_any text cfg.keywords_it)) := by
  have hd : decide (inv_conf m < cfg.invoice_confidence_min) = false := decide_eq_false h2
  revert h3
  simp only [decide_and_route, triggers_of, it_deductible_of]
  rw [h1, hd]
  generalize matches_specific_iban cfg.match_ibans text = ibm
  generalize contains_any text cfg.keywords_farming = kwf
  generalize contains_any text cfg.keywords_it = kwi
  generalize ai_farm_of m = af
  generalize ai_it_of m = ai
  generalize m.it_deductible_for_tax = dt
  cases ibm <;> cases kwf <;> cases kwi <;> cases af <;> cases ai <;> cases dt <;> simp

/-- C2 counterexample: gate passed, trigger true (via `ai_farm`),
`ai_related[IT]` true with confidence 0.9, yet `forward_it` is false —
the claimed formula `triggers AND (ai_related, keyword or deductible)`
evaluates to true there. -/
theorem c2_counterexample :
    metaFarmIt.is_invoice = true ∧
    ¬ inv_conf metaFarmIt < cfg0.invoice_confidence_min ∧
    triggers_of cfg0 metaFarmIt textPlain = true ∧
    ai_it_of metaFarmIt = true ∧
    spec_forward_it cfg0 metaFarmIt textPlain = true ∧
    (decide_and_route cfg0 metaFarmIt textPlain).forward_it = false := by
  decide

/-- C2 witness: the amended per-topic rules evaluated at a concrete
gate-passing, triggered input. -/
theorem c2_witness :
    triggers_of cfg0 metaFarmIt textPlain = true ∧
    (decide_and_route cfg0 metaFarmIt textPlain).forward_it
      = (it_deductible_of metaFarmIt || contains_any textPlain cfg0.keywords_it) :=
  ⟨by decide, (c2_forward_rules cfg0 metaFarmIt textPlain rfl (by decide) (by decide)).1⟩

/-- C3 (corrected): when the gate short-circuits, both forward flags are
false but the returned reason list is NOT cleared — it is the list of signal
reasons accumulated before the gate. -/
theorem c3_reasons_on_short_circuit (cfg : Config) (m : MetaDict) (text : String)
    (h : m.is_invoice = false ∨ inv_conf m < cfg.invoice_confidence_min) :
    (decide_and_route cfg m text).forward_farm = false ∧
      (decide_and_route cfg m text).forward_it = false ∧
      (decide_and_route cfg m text).reasons = reasons_of cfg m text := by
  rw [gate_fail_eval cfg m text h]
  exact ⟨rfl, rfl, rfl⟩

/-- C3 counterexample: a non-invoice classification with a farming AI signal
short-circuits, yet the returned reasons list is nonempty. -/
theorem c3_counterexample :
    metaNoInvoice.is_invoice = false ∧
    (decide_and_route cfg0 metaNoInvoice textPlain).reasons = ["ai_farm"] := by
  decide

/-- C3 witness: the amended statement evaluated at the same short-circuiting
input. -/
theorem c3_witness :
    metaNoInvoice.is_invoice = false ∧
    (decide_and_route cfg0 metaNoInvoice textPlain).forward_farm = false ∧
    (decide_and_route cfg0 metaNoInvoice textPlain).reasons
      = reasons_of cfg0 metaNoInvoice textPlain :=
  ⟨rfl, (c3_reasons_on_short_circuit cfg0 metaNoInvoice textPlain (Or.inl rfl)).1,
    (c3_reasons_on_short_circuit cfg0 metaNoInvoice textPlain (Or.inl rfl)).2.2⟩

/-- C4 (confirmed): for every combination of rule and AI signals, when the
classification is not an invoice or its confidence is below the threshold,
every forward flag of the decision is false. -/
theorem c4_no_forward_below_threshold (cfg : Config) (m : MetaDict) (text : String)
    (h : m.is_invoice = false ∨ inv_conf m < cfg.invoice_confidence_min) :
    (decide_and_route cfg m text).forward_farm = false ∧
      (decide_and_route cfg m text).forward_it = false := by
  rw [gate_fail_eval cfg m text h]
  exact ⟨rfl, rfl⟩

/-- C4 witness: evaluated at a concrete non-invoice input. -/
theorem c4_witness :
    metaNoInvoice.is_invoice = false ∧
    (decide_and_route cfg0 metaNoInvoice textPlain).forward_farm = false ∧
    (decide_and_route cfg0 metaNoInvoice textPlain).forward_it = false :=
  ⟨rfl, (c4_no_forward_below_threshold cfg0 metaNoInvoice textPlain (Or.inl rfl)).1,
    (c4_no_forward_below_threshold cfg0 metaNoInvoice textPlain (Or.inl rfl)).2⟩

/-- C5 (confirmed): gate passed, trigger true, and neither per-topic rule
fired: the fallback forces exactly the farm (default) topic to forward and
appends the default-topic reason tag. -/
theorem c5_default_topic (cfg : Config) (m : MetaDict) (text : String)
    (h1 : m.is_invoice = true)
    (h2 : ¬ inv_conf m < cfg.invoice_confidence_min)
    (h3 : triggers_of cfg m text = true)
    (h4 : (triggers_of cfg m text
        && (ai_farm_of m || contains_any text cfg.keywords_farming)) = false)
    (h5 : (triggers_of cfg m text
        && (it_deductible_of m || contains_any text cfg.keywords_it)) = false) :
    (decide_and_route cfg m text).forward_farm = true ∧
      (decide_and_route cfg m text).forward_it = false ∧
      "default_farm" ∈ (decide_and_route cfg m text).reasons := by
  have hd : decide (inv_conf m < cfg.invoice_confidence_min) = false := decide_eq_false h2
  revert h3 h4 h5
  simp only [decide_and_route, triggers_of, it_deductible_of]
  rw [h1, hd]
  generalize matches_specific_iban cfg.match_ibans text = ibm
  generalize contains_any text cfg.keywords_farming = kwf
  generalize contains_any text cfg.keywords_it = kwi
  generalize ai_farm_of m = af
  generalize ai_it_of m = ai
  generalize m.it_deductible_for_tax = dt
  cases ibm <;> cases kwf <;> cases kwi <;> cases af <;> cases ai <;> cases dt <;> simp

/-- C5 witness: a confident invoice whose only signal is a configured IBAN
in the text — the fallback fires and routes to the farm mailbox. -/
theorem c5_witness :
    triggers_of cfg0 metaInvoiceOnly textIban = true ∧
    (decide_and_route cfg0 metaInvoiceOnly textIban).forward_farm = true ∧
    (decide_and_route cfg0 metaInvoiceOnly textIban).forward_it = false ∧
    "default_farm" ∈ (decide_and_route cfg0 metaInvoiceOnly textIban).reasons :=
  ⟨by decide,
    (c5_default_topic cfg0 metaInvoiceOnly textIban rfl (by decide) (by decide)
      (by decide) (by decide)).1,
    (c5_default_topic cfg0 metaInvoiceOnly textIban rfl (by decide) (by decide)
      (by decide) (by decide)).2.1,
    (c5_default_topic cfg0 metaInvoiceOnly textIban rfl (by decide) (by decide)
      (by decide) (by decide)).2.2⟩

/-- C6 (confirmed): the extract stage runs iff the gate said invoice with
confidence at least the gate threshold; otherwise the meta handed to the
decision engine is synthesized from the gate output with `is_invoice` and
the deductible flag forced false and the per-topic fields copied — and such
a document is never forwarded. -/
theorem c6_gate_decision (cfg : Config) (gate : GateResult) (em : MetaDict) (text : String) :
    (run_big cfg gate = true ↔
      (gate.is_invoice = true ∧ cfg.gate_invoice_min ≤ gate.confidence.getD 0)) ∧
    (run_big cfg gate = false →
      cascade_meta cfg gate em = synth_meta gate ∧
      (cascade_meta cfg gate em).is_invoice = false ∧
      (cascade_meta cfg gate em).invoice_confidence = some (gate.confidence.getD 0) ∧
      (cascade_meta cfg gate em).is_farming_related = gate.is_farming_related ∧
      (cascade_meta cfg gate em).farming_confidence = some (gate.farming_confidence.getD 0) ∧
      (cascade_meta cfg gate em).is_it_related = gate.is_it_related ∧
      (cascade_meta cfg gate em).it_confidence = some (gate.it_confidence.getD 0) ∧
      (cascade_meta cfg gate em).it_deductible_for_tax = false ∧
      (decide_and_route cfg (cascade_meta cfg gate em) text).forward_farm = false ∧
      (decide_and_route cfg (cascade_meta cfg gate em) text).forward_it = false) := by
  constructor
  · simp [run_big]
  · intro h
    have hc : cascade_meta cfg gate em = synth_meta gate := by
      simp [cascade_meta, h]
    have hf := forwards_false_of_not_invoice cfg (synth_meta gate) text rfl
    rw [hc]
    exact ⟨rfl, rfl, rfl, rfl, rfl, rfl, rfl, rfl, hf.1, hf.2⟩

/-- C6 witness: a gate answer with confidence 0.10 — the extract stage is
skipped and the document cannot be forwarded. -/
theorem c6_witness :
    run_big cfg0 gate0 = false ∧
    (decide_and_route cfg0 (cascade_meta cfg0 gate0 metaInvoiceOnly) textPlain).forward_farm
      = false ∧
    (decide_and_route cfg0 (cascade_meta cfg0 gate0 metaInvoiceOnly) textPlain).forward_it
      = false :=
  ⟨by decide,
    ((c6_gate_decision cfg0 gate0 metaInvoiceOnly textPlain).2 (by decide)).2.2.2.2.2.2.2.2.1,
    ((c6_gate_decision cfg0 gate0 metaInvoiceOnly textPlain).2 (by decide)).2.2.2.2.2.2.2.2.2⟩

/-- C7 (corrected): after a forward the applier adds the forwarded tag plus
one tag per true signal flag — equivalently one tag per reason other than
the default-topic reason, which receives no tag. -/
theorem c7_outcome_tags (cfg : Config) (m : MetaDict) (text : String) :
    ((decide_and_route cfg m text).forward_farm
        || (decide_and_route cfg m text).forward_it) = true →
      outcome_tags (decide_and_route cfg m text)
        = "forwarded" ::
            (((decide_and_route cfg m text).reasons.filter
                (fun r => r != "default_farm")).map reasonLabel) := by
  simp only [decide_and_route, outcome_tags]
  generalize matches_specific_iban cfg.match_ibans text = ibm
  generalize contains_any text cfg.keywords_farming = kwf
  generalize contains_any text cfg.keywords_it = kwi
  generalize ai_farm_of m = af
  generalize ai_it_of m = ai
  generalize m.it_deductible_for_tax = dt
  generalize m.is_invoice = inv
  generalize Decidable.decide (inv_conf m < cfg.invoice_confidence_min) = cl
  cases inv <;> cases cl <;> cases ibm <;> cases kwf <;> cases kwi <;>
    cases af <;> cases ai <;> cases dt <;> simp [reasonLabel]

/-- C7 counterexample: a fallback-forwarded decision has the two distinct
reasons iban and default_farm, but the applier adds only the forwarded tag
and the iban tag — no tag corresponds to the default-topic reason. -/
theorem c7_counterexample :
    (decide_and_route cfg0 metaInvoiceOnly textIban).forward_farm = true ∧
    (decide_and_route cfg0 metaInvoiceOnly textIban).reasons = ["iban", "default_farm"] ∧
    outcome_tags (decide_and_route cfg0 metaInvoiceOnly textIban)
      = ["forwarded", "reason_iban"] := by
  decide

/-- C7 witness: the amended tagging equation evaluated on a concrete
forwarding decision. -/
theorem c7_witness :
    ((decide_and_route cfg0 metaFarmIt textPlain).forward_farm
        || (decide_and_route cfg0 metaFarmIt textPlain).forward_it) = true ∧
    outcome_tags (decide_and_route cfg0 metaFarmIt textPlain)
      = "forwarded" ::
          (((decide_and_route cfg0 metaFarmIt textPlain).reasons.filter
              (fun r => r != "default_farm")).map reasonLabel) :=
  ⟨by decide, c7_outcome_tags cfg0 metaFarmIt textPlain (by decide)⟩

/-- C8 (confirmed): a candidate document whose text is blank produces no
classifier call, no label, no mail and no ledger write — it stays a
candidate — and a document is marked done only when its text was not blank. -/
theorem c8_blank_skip (cfg : Config) (L : List (Nat × Nat)) (docId t : Nat)
    (text : String) (gate : GateResult) (em : MetaDict) (farmTo itTo : String) :
    (already_done L docId = false → is_blank text = true →
      process_step cfg L docId t text gate em farmTo itTo = (noEffects, L) ∧
      already_done (process_step cfg L docId t text gate em farmTo itTo).2 docId = false) ∧
    ((process_step cfg L docId t text gate em farmTo itTo).1.marked_done = true →
      is_blank text = false) := by
  constructor
  · intro h1 h2
    have he : process_step cfg L docId t text gate em farmTo itTo = (noEffects, L) := by
      simp [process_step, process_doc, h1, h2, noEffects]
    exact ⟨he, by rw [he]; exact h1⟩
  · intro h
    by_cases hb : is_blank text = true
    · exfalso
      revert h
      by_cases ha : already_done L docId = true <;>
        simp [process_step, process_doc, ha, hb, noEffects]
    · simpa using hb

/-- C8 witness: a blank document at poll time, with an empty ledger. -/
theorem c8_witness :
    already_done [] 1 = false ∧ is_blank textBlank = true ∧
    process_step cfg0 [] 1 10 textBlank gate0 metaInvoiceOnly ("farm-box") ("it-box")
      = (noEffects, []) :=
  ⟨rfl, by decide,
    ((c8_blank_skip cfg0 [] 1 10 textBlank gate0 metaInvoiceOnly ("farm-box") ("it-box")).1
      rfl (by decide)).1⟩

/-- C9 (confirmed): under the at-most-once ledger invariant, two
`mark_done` calls leave exactly one row for the id, the second call changes
nothing, and `contains` is true from the first call on and is preserved by
every further `mark_done`. -/
theorem c9_ledger_idempotent (L : List (Nat × Nat)) (id t t' : Nat)
    (h : L.countP (fun e => e.1 == id) ≤ 1) :
    (mark_done (mark_done L id t) id t').countP (fun e => e.1 == id) = 1 ∧
    mark_done (mark_done L id t) id t' = mark_done L id t ∧
    already_done (mark_done L id t) id = true ∧
    ∀ id' t'', already_done (mark_done (mark_done L id t) id' t'') id = true := by
  have hA : already_done (mark_done L id t) id = true := by
    unfold mark_done
    split
    · assumption
    · simp [already_done, List.any_append]
  have hEq : mark_done (mark_done L id t) id t' = mark_done L id t :=
    mark_done_present _ id t' hA
  have hcount : (mark_done L id t).countP (fun e => e.1 == id) = 1 := by
    unfold mark_done
    split
    · next h' =>
      have h1 : 0 < L.countP (fun e => e.1 == id) := by
        rw [List.countP_pos_iff]
        simpa [already_done, List.any_eq_true] using h'
      omega
    · next h' =>
      have h0 : L.countP (fun e => e.1 == id) = 0 := by
        rw [List.countP_eq_zero]
        intro a ha
        by_contra hcon
        have : already_done L id = true := by
          simp only [already_done, List.any_eq_true]
          exact ⟨a, ha, by simpa using hcon⟩
        simp [this] at h'
      simp [List.countP_append, h0]
  exact ⟨by rw [hEq, hcount], hEq, hA,
    fun id' t'' => already_done_mono _ id id' t'' hA⟩

/-- C9 witness: the invariant and the conclusions at an empty ledger. -/
theorem c9_witness :
    (([] : List (Nat × Nat)).countP (fun e => e.1 == 5) ≤ 1) ∧
    (mark_done (mark_done [] 5 1) 5 2).countP (fun e => e.1 == 5) = 1 ∧
    already_done (mark_done (mark_done [] 5 1) 7 3) 5 = true :=
  ⟨by decide, (c9_ledger_idempotent [] 5 1 2 (by decide)).1,
    (c9_ledger_idempotent [] 5 1 2 (by decide)).2.2.2 7 3⟩

/-- C10 (confirmed, implicit): every decision that forwards carries at least
one reason: each trigger source appends its reason before the forward flags
can be set, and the fallback appends the default-topic reason. -/
theorem c10_forward_has_reason (cfg : Config) (m : MetaDict) (text : String) :
    ((decide_and_route cfg m text).forward_farm
        || (decide_and_route cfg m text).forward_it) = true →
      (decide_and_route cfg m text).reasons ≠ [] := by
  simp only [decide_and_route]
  generalize matches_specific_iban cfg.match_ibans text = ibm
  generalize contains_any text cfg.keywords_farming = kwf
  generalize contains_any text cfg.keywords_it = kwi
  generalize ai_farm_of m = af
  generalize ai_it_of m = ai
  generalize m.it_deductible_for_tax = dt
  generalize m.is_invoice = inv
  generalize Decidable.decide (inv_conf m < cfg.invoice_confidence_min) = cl
  cases inv <;> cases cl <;> cases ibm <;> cases kwf <;> cases kwi <;>
    cases af <;> cases ai <;> cases dt <;> simp

/-- C10 witness: a forwarding decision with its nonempty reason list. -/
theorem c10_witness :
    ((decide_and_route cfg0 metaFarmIt textPlain).forward_farm
        || (decide_and_route cfg0 metaFarmIt textPlain).forward_it) = true ∧
    (decide_and_route cfg0 metaFarmIt textPlain).reasons ≠ [] :=
  ⟨by decide, c10_forward_has_reason cfg0 metaFarmIt textPlain (by decide)⟩

end Forwarder
